import Mathlib

/-!
Verification of the persistent-live-kali provisioning scripts.

This file gives a shallow embedding of the two Python sources
`kali_persistence_setup.py` (the orchestrator) and
`kali_persistence_setup_b.py` (the standalone config writer), and proves
the frozen claims about them.  External collaborators (lsblk, parted,
blkid, findmnt, mount/umount, mkfs) are modelled by an explicit
environment record holding their replies; the effects the scripts issue
against the system are collected in an explicit trace.
-/

/-! ## String utilities mirroring the Python primitives -/

/-- Membership of a character list as a contiguous sublist, mirroring the
Python substring operator `pat in s` (on the character level). -/
def hasSubList (pat : List Char) : List Char → Bool
  | [] => pat.isEmpty
  | c :: rest => List.isPrefixOf pat (c :: rest) || hasSubList pat rest

/-- Python `pat in s` for strings. -/
def hasSubstr (s pat : String) : Bool := hasSubList pat.toList s.toList

/-- Python `s.startswith(pre)`. -/
def pyStartswith (s pre : String) : Bool := List.isPrefixOf pre.toList s.toList

/-- Python `s.lower()` (character-wise, as in `String.toLower`). -/
def pyToLower (s : String) : String := String.mk (s.toList.map Char.toLower)

/-- Characters before the first colon, mirroring `line.split(":", 1)[0]`. -/
def beforeColon : List Char → List Char
  | [] => []
  | c :: rest => if c = ':' then [] else c :: beforeColon rest

/-- Python `s.strip()` (whitespace trimmed from both ends). -/
def pyStrip (l : List Char) : List Char :=
  ((l.dropWhile Char.isWhitespace).reverse.dropWhile Char.isWhitespace).reverse

/-- The device field of a `blkid` output line: `line.split(":", 1)[0].strip()`. -/
def extractDev (line : String) : String := String.mk (pyStrip (beforeColon line.toList))

/-- The trailing path component, mirroring `pathlib.Path(p).name`
(trailing slashes are ignored, the component after the last `/` is kept). -/
def pathNameChars (l : List Char) : List Char :=
  ((l.reverse.dropWhile (· = '/')).takeWhile (· ≠ '/')).reverse

/-! ## Fixed literals of both scripts -/

/-- `CONF_CONTENT` of kali_persistence_setup.py, line 29. -/
def CONF_CONTENT : String := "/ union\n"

/-- `CONF_LINE` of kali_persistence_setup_b.py, line 22. -/
def CONF_LINE : String := "/ union\n"

/-- `MOUNT_POINT` of kali_persistence_setup.py, line 28. -/
def mountPoint : String := "/mnt/kali_persistence"

/-- `MOUNT_POINT` of kali_persistence_setup_b.py, line 21 (initial value). -/
def mountPointB : String := "/mnt/kali_persistence"

/-- The substring both scripts look for in blkid output to recognise the
persistence label. -/
def labelPat : String := "LABEL=\"persistence\""

/-- The substring both scripts look for in blkid output to recognise an
ext4 filesystem. -/
def typePat : String := "TYPE=\"ext4\""

/-- A blkid output line reporting an ext4 filesystem labeled `persistence`:
the test `'LABEL="persistence"' in line and 'TYPE="ext4"' in line` used at
kali_persistence_setup.py:290 and kali_persistence_setup_b.py:51. -/
def persLine (l : String) : Bool := hasSubstr l labelPat && hasSubstr l typePat

/-! ## Data model: the lsblk device tree -/

/-- A child entry of a disk in the `lsblk -bJ` tree (a partition record):
the fields the scripts read.  `fstype`/`label` are `none` when the JSON
value is null, matching `p.get("fstype")` returning `None`. -/
structure PChild where
  type : String
  path : String
  size : Nat
  fstype : Option String
  label : Option String
deriving DecidableEq

/-- A top-level entry of the `lsblk -bJ` tree with the fields the scripts
read (`type`, `path`, `size`, `rm`, `children`). -/
structure BDev where
  type : String
  path : String
  size : Nat
  rm : Nat
  children : List PChild
deriving DecidableEq

/-! ## Candidate disk selection (find_kali_usb_candidate, lines 56-113) -/

/-- The iso-like test on one child, kali_persistence_setup.py line 89:
size in [4 GiB, 8 GiB] and (fstype in the optical/FAT allow-list or the
lower-cased label contains "kali").  `p.get("fstype") or ""` is modelled
by `Option.getD ""`. -/
def isoishB (p : PChild) : Bool :=
  (decide (4 * 1024 ^ 3 ≤ p.size) && decide (p.size ≤ 8 * 1024 ^ 3)) &&
    ((pyToLower (p.fstype.getD "") == "iso9660" || pyToLower (p.fstype.getD "") == "vfat" ||
        pyToLower (p.fstype.getD "") == "fat" || pyToLower (p.fstype.getD "") == "fat32") ||
      hasSubstr (pyToLower (p.label.getD "")) "kali")

/-- The tiny-partition test on one child, line 91: size in [1 MiB, 8 MiB]. -/
def tinyB (p : PChild) : Bool :=
  decide (1024 ^ 2 ≤ p.size) && decide (p.size ≤ 8 * 1024 ^ 2)

/-- A disk passes the candidate filter of lines 74-94: total size at least
8 GiB, at least two children, one iso-like child and one tiny child. -/
def diskQualifies (d : BDev) : Bool :=
  decide (8 * 1024 ^ 3 ≤ d.size) && decide (2 ≤ d.children.length) &&
    d.children.any isoishB && d.children.any tinyB

/-- The candidate score of line 96: `2 + (1 if rm == 1 else 0)`. -/
def scoreOf (d : BDev) : Nat := 2 + (if d.rm = 1 then 1 else 0)

/-- The candidate list of lines 66-97: type-"disk" entries passing the
filter, each carried as `(score, path, record)` in tree order. -/
def buildCandidates (tree : List BDev) : List (Nat × String × BDev) :=
  ((tree.filter (fun d => d.type == "disk")).filter (fun d => diskQualifies d)).map
    (fun d => (scoreOf d, d.path, d))

/-- Sorting relation of line 99: descending by score.  Python `list.sort`
is stable; `List.insertionSort` with this relation keeps the original
order of equal scores just like the source does. -/
def candRel (a b : Nat × String × BDev) : Prop := b.1 ≤ a.1

instance : DecidableRel candRel := fun a b => Nat.decLe b.1 a.1

instance : IsTotal (Nat × String × BDev) candRel := ⟨fun a b => Nat.le_total b.1 a.1⟩

instance : IsTrans (Nat × String × BDev) candRel := ⟨fun _ _ _ h1 h2 => Nat.le_trans h2 h1⟩

/-- The sorted candidate list (`candidates.sort(reverse=True, key=score)`). -/
def sortCandidates (l : List (Nat × String × BDev)) : List (Nat × String × BDev) :=
  l.insertionSort candRel

/-- The `(path, size, rm)` rows printed in the ambiguity message of lines
108-110: the first ten sorted candidates (`candidates[:10]`). -/
def listedOf (cands : List (Nat × String × BDev)) : List (String × Nat × Nat) :=
  (cands.take 10).map (fun c => (c.2.1, c.2.2.size, c.2.2.rm))

/-- Result of `find_kali_usb_candidate`: either no candidate (with the
message of line 102), an ambiguity refusal carrying the listed rows, or
the unique chosen disk path. -/
inductive SelectResult where
  | noCandidate (msg : String)
  | ambiguous (listed : List (String × Nat × Nat))
  | chosen (path : String)
deriving DecidableEq

/-- The greatest score among candidates (0 for the empty list; every real
candidate scores at least 2). -/
def maxScore (cands : List (Nat × String × BDev)) : Nat :=
  cands.foldr (fun c m => Nat.max c.1 m) 0

/-- `find_kali_usb_candidate`, lines 56-113: build and sort candidates;
with none, report failure; with several sharing the top score, refuse and
list the first ten candidates; otherwise return the top path. -/
def find_kali_usb_candidate (tree : List BDev) : SelectResult :=
  match sortCandidates (buildCandidates tree) with
  | [] => SelectResult.noCandidate "No obvious Kali-flashed USB found."
  | c :: rest =>
    if ((c :: rest).filter (fun x => x.1 == c.1)).length ≠ 1 then
      SelectResult.ambiguous (listedOf (c :: rest))
    else SelectResult.chosen c.2.1

/-! ## Free-region location (get_free_region_mib, lines 159-195)

Offsets are in MiB; parted prints them as decimal numbers, modelled by
rationals. -/

/-- The usable free regions, line 188: span at least 32 MiB. -/
def usableRegions (regions : List (ℚ × ℚ)) : List (ℚ × ℚ) :=
  regions.filter (fun r => decide (32 ≤ r.2 - r.1))

/-- Sorting relation of line 194: descending by end offset. -/
def regRel (a b : ℚ × ℚ) : Prop := b.2 ≤ a.2

instance : DecidableRel regRel := fun a b => inferInstanceAs (Decidable (b.2 ≤ a.2))

instance : IsTotal (ℚ × ℚ) regRel := ⟨fun a b => le_total b.2 a.2⟩

instance : IsTrans (ℚ × ℚ) regRel := ⟨fun _ _ _ h1 h2 => le_trans h2 h1⟩

/-- `get_free_region_mib` from the parsed free extents onwards: keep the
usable regions, sort them by end offset descending, return the first (or
none when no region is usable). -/
def get_free_region_mib (regions : List (ℚ × ℚ)) : Option (ℚ × ℚ) :=
  (List.insertionSort regRel (usableRegions regions)).head?

/-! ## Partition provisioning (create_partition3, lines 197-215) -/

/-- Python `round(x)` to an integer, ties to even. -/
def roundHalfEven (x : ℚ) : ℤ :=
  let n := ⌊x⌋
  let f := x - n
  if f < 1 / 2 then n
  else if 1 / 2 < f then n + 1
  else if n % 2 = 0 then n else n + 1

/-- Python `round(x, 2)` used at line 208 (identity on parted's
two-decimal offsets). -/
def pyRound2 (x : ℚ) : ℚ := ((roundHalfEven (x * 100) : ℚ)) / 100

/-! ## Effects issued against the system -/

/-- One externally visible operation of either script.  `mkpart` and
`mkfsExt4` are the destructive partition-table/filesystem operations. -/
inductive Effect where
  | unmountTarget (target : String)
  | mkpart (disk : String) (startMiB endMiB : ℚ)
  | mkfsExt4 (part : String)
  | mountDev (dev target : String)
  | writeFile (path content : String)
  | syncFs
  | unmountPoint (target : String)
deriving DecidableEq

/-- Partition creation and formatting are the destructive operations. -/
def isDestructive : Effect → Bool
  | Effect.mkpart _ _ _ => true
  | Effect.mkfsExt4 _ => true
  | _ => false

/-- `create_partition3`, lines 197-215: locate the trailing free region
(none: `RuntimeError`, modelled as `none`); align the start forward by
1 MiB; refuse when fewer than 32 MiB remain; otherwise issue the mkpart
call.  The udev settle pause has no modelled effect. -/
def create_partition3 (disk : String) (regions : List (ℚ × ℚ)) : Option (List Effect) :=
  match get_free_region_mib regions with
  | none => none
  | some r =>
    let start_aligned := pyRound2 (r.1 + 1)
    if r.2 - start_aligned < 32 then none
    else some [Effect.mkpart disk start_aligned r.2]

/-! ## Partition path derivation (partition_path, lines 217-225) -/

/-- `partition_path`, lines 217-225: infix `p` before the partition
number exactly when the trailing path component starts with `nvme` or
`mmcblk`. -/
def partition_path (disk : String) (n : Nat) : String :=
  if pyStartswith (String.mk (pathNameChars disk.toList)) "nvme" ||
      pyStartswith (String.mk (pathNameChars disk.toList)) "mmcblk" then
    disk ++ "p" ++ toString n
  else disk ++ toString n

/-! ## Filesystem ensurer (ensure_ext4_persistence, lines 227-235) -/

/-- The blkid report for a partition whose filesystem state is `none`
(no recognised filesystem: blkid prints nothing) or `some (t, l)`
(filesystem type `t` carrying label `l`). -/
def blkidOf : Option (String × String) → String
  | none => ""
  | some (t, l) => "LABEL=\"" ++ l ++ "\" TYPE=\"" ++ t ++ "\""

/-- `ensure_ext4_persistence`, lines 227-235, as a transformer of the
partition filesystem state: when blkid already reports `TYPE="ext4"` and
`LABEL="persistence"` nothing happens; otherwise the partition is
formatted ext4 with label persistence. -/
def ensure_ext4_persistence (part : String) (st : Option (String × String)) :
    Option (String × String) × List Effect :=
  if hasSubstr (blkidOf st) typePat && hasSubstr (blkidOf st) labelPat then (st, [])
  else (some ("ext4", "persistence"), [Effect.mkfsExt4 part])

/-! ## Partition listing (get_part_paths, lines 115-130) -/

/-- Trailing partition number of a path, mirroring
`re.search(r"(\d+)$", p)` with default 999 (line 125-127). -/
def partnumOf (p : String) : Nat :=
  let ds := (p.toList.reverse.takeWhile Char.isDigit).reverse
  if ds.isEmpty then 999 else ds.foldl (fun n c => n * 10 + (c.toNat - 48)) 0

/-- Sorting relation for partition paths: ascending partition number,
stable like Python `list.sort`. -/
def partRel (a b : String) : Prop := partnumOf a ≤ partnumOf b

instance : DecidableRel partRel := fun a b => Nat.decLe (partnumOf a) (partnumOf b)

instance : IsTotal String partRel := ⟨fun a b => Nat.le_total (partnumOf a) (partnumOf b)⟩

instance : IsTrans String partRel := ⟨fun _ _ _ h1 h2 => Nat.le_trans h1 h2⟩

/-- `get_part_paths`, lines 115-130: the paths of the type-"part"
children of the first tree entry matching the disk path, sorted by
trailing partition number. -/
def get_part_paths (tree : List BDev) (disk : String) : List String :=
  match tree.find? (fun d => d.path == disk && d.type == "disk") with
  | some d =>
    (((d.children.filter (fun p => p.type == "part")).map (fun p => p.path))).insertionSort partRel
  | none => []

/-! ## The orchestrator (main, lines 248-317) -/

/-- Replies of the external collaborators consumed by one orchestrator
run, queried in program order.  `strayMounts` are the mount targets of
partitions of the target disk (`lsblk -nr -o PATH,MOUNTPOINTS`); when the
disk has no mounted partition it is empty and the quiesce step is a
no-op, exactly as in the source.  `p3FsState` is the filesystem state
blkid reports for partition 3. -/
structure Env where
  tree0 : List BDev
  deviceExists : String → Bool
  rootSource : String
  strayMounts : List String
  tree1 : List BDev
  blkidLines : List String
  freeRegions : List (ℚ × ℚ)
  p3Exists : Bool
  p3FsState : Option (String × String)
  mountOk : Bool
  writeOk : Bool

/-- `mount_and_write_conf`, lines 237-246: mount, write the activation
file, sync, and unmount in a `finally` block, so the unmount is issued
even when the write fails.  The Bool records whether the stage succeeded
(a failed step raises in the source). -/
def mount_and_write_conf (env : Env) (part : String) : Bool × List Effect :=
  if env.mountOk then
    if env.writeOk then
      (true, [Effect.mountDev part mountPoint,
              Effect.writeFile (mountPoint ++ "/persistence.conf") CONF_CONTENT,
              Effect.syncFs,
              Effect.unmountPoint mountPoint])
    else (false, [Effect.mountDev part mountPoint, Effect.unmountPoint mountPoint])
  else (false, [])

/-- The fast-path scan of lines 286-293: when the blkid output mentions
`LABEL="persistence"`, the first line carrying both the label and
`TYPE="ext4"` yields the existing persistence device; otherwise (also
when no line carries both) control falls through to the slow path.  The
output is modelled line-by-line; both patterns are newline-free, so the
per-line membership test agrees with Python's test on the joined text. -/
def fastPathDevice (lines : List String) : Option String :=
  if lines.any (fun l => hasSubstr l labelPat) then
    match lines.find? persLine with
    | some l => some (extractDev l)
    | none => none
  else none

/-- Outcome of a run: success (exit 0) or an abort naming the failing
stage (`sys.exit(1)` / uncaught `RuntimeError`). -/
inductive RunResult where
  | success
  | aborted (stage : String)
deriving DecidableEq

/-- `main`, lines 248-317, for an explicitly given device: existence
check; safety check against the root filesystem source (`findmnt` reply
nonempty and starting with the disk path); best-effort unmount of stray
mounts; the fast path when blkid already reports a persistence volume;
otherwise partition creation when fewer than three partitions exist,
partition-3 existence check (after settling, collapsed into one flag),
formatting, and the config write. -/
def mainRun (disk : String) (env : Env) : RunResult × List Effect :=
  if env.deviceExists disk = false then (RunResult.aborted "device-not-found", [])
  else if (env.rootSource != "") && pyStartswith env.rootSource disk then
    (RunResult.aborted "safety", [])
  else
    let unmEffs := env.strayMounts.map Effect.unmountTarget
    let parts := get_part_paths env.tree1 disk
    match fastPathDevice env.blkidLines with
    | some pdev =>
      let res := mount_and_write_conf env pdev
      (if res.1 then RunResult.success else RunResult.aborted "writeconf", unmEffs ++ res.2)
    | none =>
      let created : Option (List Effect) :=
        if parts.length < 3 then create_partition3 disk env.freeRegions else some []
      match created with
      | none => (RunResult.aborted "space", unmEffs)
      | some createEffs =>
        if env.p3Exists = false then (RunResult.aborted "p3-missing", unmEffs ++ createEffs)
        else
          let p3 := partition_path disk 3
          let fmt := ensure_ext4_persistence p3 env.p3FsState
          let res := mount_and_write_conf env p3
          (if res.1 then RunResult.success else RunResult.aborted "writeconf",
           unmEffs ++ createEffs ++ fmt.2 ++ res.2)

/-! ## The standalone config writer (kali_persistence_setup_b.py) -/

/-- Result of `find_persistence_device`, lines 35-61: the error of line
56, or the first matching device together with whether the
multiple-candidates warning of line 60 was printed. -/
inductive FindResult where
  | err (msg : String)
  | found (dev : String) (warned : Bool)
deriving DecidableEq

/-- `find_persistence_device`, lines 35-61: the devices of the blkid
lines carrying both `LABEL="persistence"` and `TYPE="ext4"`, in output
order; error when none, first device (with a warning when several)
otherwise. -/
def find_persistence_device (lines : List String) : FindResult :=
  match (lines.filter persLine).map extractDev with
  | [] => FindResult.err "No ext4 partition found with LABEL persistence."
  | d :: rest => FindResult.found d (decide (1 < rest.length + 1))

/-- Replies of the collaborators for one run of the standalone script:
the blkid lines, the pre-existing mount target of the found device (none
when it is not mounted), and whether the write succeeds. -/
structure EnvB where
  blkidLines : List String
  preMount : Option String
  writeOk : Bool

/-- `main` of kali_persistence_setup_b.py, lines 101-126: find the
device; `mount_device` skips mounting when the device is already mounted
elsewhere; the script then rebinds its mount-point variable to the
actual mount target when that differs (the source writes
`global MOUNT_POINT` only after the name was already read at line 116, a
Python SyntaxError; the evident intent of lines 113-118 is modelled);
`write_conf` writes the activation line there; `unmount_device` unmounts
exactly when the device's current mount target equals the (possibly
rebound) mount-point variable.  There is no `finally`: a failed write
aborts before any unmount. -/
def mainB (env : EnvB) : RunResult × List Effect :=
  match find_persistence_device env.blkidLines with
  | FindResult.err m => (RunResult.aborted m, [])
  | FindResult.found dev _ =>
    let mountEffs : List Effect :=
      match env.preMount with
      | some _ => []
      | none => [Effect.mountDev dev mountPointB]
    let target : String :=
      match env.preMount with
      | some t => t
      | none => mountPointB
    let mp := if target == mountPointB then mountPointB else target
    if env.writeOk then
      let writeEffs := [Effect.writeFile (mp ++ "/persistence.conf") CONF_LINE, Effect.syncFs]
      let unmEffs := if target == mp then [Effect.unmountPoint mp] else []
      (RunResult.success, mountEffs ++ writeEffs ++ unmEffs)
    else (RunResult.aborted "write", mountEffs)

/-! ## A file store to state what the config write leaves behind -/

/-- Replay the file writes of a trace over a path-to-content store
(later writes overwrite earlier content for the same path). -/
def applyEffects (fs : List (String × String)) (effs : List Effect) : List (String × String) :=
  effs.foldl
    (fun m e =>
      match e with
      | Effect.writeFile p c => (p, c) :: m.filter (fun kv => kv.1 != p)
      | _ => m)
    fs

/-- Content of a file in the store. -/
def readFsFile (fs : List (String × String)) (p : String) : Option String :=
  (fs.find? (fun kv => kv.1 == p)).map (fun kv => kv.2)

/-! ## Concrete inputs used by counterexamples and witnesses -/

/-- A 5 GiB iso9660 child, as on a flashed live image. -/
def isoChild : PChild :=
  ⟨"part", "/dev/x1", 5 * 1024 ^ 3, some "iso9660", none⟩

/-- A 4 MiB unformatted child, the tiny second partition. -/
def tinyChild : PChild :=
  ⟨"part", "/dev/x2", 4 * 1024 ^ 2, none, none⟩

/-- A 16 GiB disk carrying the two children above. -/
def mkDiskEx (path : String) (rm : Nat) : BDev :=
  ⟨"disk", path, 16 * 1024 ^ 3, rm, [isoChild, tinyChild]⟩

/-- Three qualifying disks: two removable (score 3) and one fixed
(score 2). -/
def treeThree : List BDev :=
  [mkDiskEx "/dev/sda" 1, mkDiskEx "/dev/sdb" 1, mkDiskEx "/dev/sdc" 0]

/-- A blkid line reporting an existing persistence volume. -/
def blkidLineEx : String :=
  "/dev/sdb3: LABEL=\"persistence\" UUID=\"0000-01\" TYPE=\"ext4\" PARTUUID=\"a1\""

/-- A second blkid line reporting another persistence volume. -/
def blkidLineEx2 : String :=
  "/dev/sdc1: LABEL=\"persistence\" UUID=\"0000-02\" TYPE=\"ext4\""

/-- The claim's condition on disk names (C7 wording): the trailing path
component is a multi-character token whose last character bears a digit.
This is the specification's phrase, kept separate from `partition_path`
so the two can be compared. -/
def endsInDigitToken (disk : String) : Bool :=
  decide (2 ≤ (pathNameChars disk.toList).length) &&
    ((pathNameChars disk.toList).getLastD ' ').isDigit

/-- Witness environment: blkid already reports a persistence volume;
the disk is not the system disk; mount and write succeed. -/
def envC1 : Env :=
  ⟨[], fun _ => true, "/dev/sda2", [], [], [blkidLineEx], [], false, none, true, true⟩

/-- Witness environment: the root filesystem source starts with the
candidate disk path. -/
def envC2 : Env :=
  ⟨[], fun _ => true, "/dev/sda2", [], [], [], [], false, none, true, true⟩

/-- Witness environment for the config-write stage. -/
def envC9 : Env :=
  ⟨[], fun _ => true, "", [], [], [], [], false, none, true, true⟩

/-- A store holding stale content for the activation file. -/
def fsOld : List (String × String) :=
  [("/mnt/kali_persistence/persistence.conf", "old contents")]

/-! ## Helper lemmas -/

lemma startswith_target_ne_empty {s pre : String} (hp : pre ≠ "")
    (h : pyStartswith s pre = true) : s ≠ "" := by
  intro hs
  subst hs
  apply hp
  cases hl : pre.toList with
  | nil =>
    cases pre with
    | mk data =>
      simp [String.toList] at hl
      simp [hl]
  | cons a t =>
    rw [pyStartswith, hl] at h
    simp [List.isPrefixOf] at h

lemma find?_some_of_mem {α : Type} (p : α → Bool) {l : List α} {x : α}
    (hx : x ∈ l) (hp : p x = true) : ∃ y, l.find? p = some y ∧ p y = true := by
  induction l with
  | nil => cases hx
  | cons a t ih =>
    by_cases h : p a = true
    · exact ⟨a, by simp [List.find?_cons, h], h⟩
    · rcases List.mem_cons.mp hx with rfl | hx2
      · exact absurd hp h
      · obtain ⟨y, hy, hpy⟩ := ih hx2
        refine ⟨y, ?_, hpy⟩
        simp only [List.find?_cons]
        simp [Bool.not_eq_true] at h
        simp [h, hy]

lemma filter_head?_eq_find? {α : Type} (p : α → Bool) (l : List α) :
    (l.filter p).head? = l.find? p := by
  induction l with
  | nil => rfl
  | cons a t ih =>
    by_cases h : p a = true
    · simp [List.filter_cons, List.find?_cons, h]
    · simp only [Bool.not_eq_true] at h
      simp [List.filter_cons, List.find?_cons, h, ih]

/-! ## Claim C2: safety abort when the disk backs the root filesystem -/

/-- C2: whenever the candidate disk path is a prefix of (or equal to) the
device path backing the root filesystem, the run aborts at the safety
check with nonzero status and an empty effect trace — in particular no
destructive operation is attempted.  The disk path is nonempty because an
empty `--device` triggers auto-detection and `os.path.exists("")` is
false, so an empty path never reaches the check. -/
theorem c2_safety_abort (env : Env) (disk : String)
    (hdev : env.deviceExists disk = true)
    (hne : disk ≠ "")
    (hpre : pyStartswith env.rootSource disk = true) :
    mainRun disk env = (RunResult.aborted "safety", []) := by
  have hr : env.rootSource ≠ "" := startswith_target_ne_empty hne hpre
  unfold mainRun
  rw [hdev]
  simp [hpre, bne_iff_ne, hr]

/-- Witness for C2 at a concrete system state. -/
theorem c2_safety_abort_witness :
    mainRun "/dev/sda" envC2 = (RunResult.aborted "safety", []) :=
  c2_safety_abort envC2 "/dev/sda" rfl (by decide) (by decide)

/-! ## Claim C7: partition path derivation -/

/-- C7 counterexample: `/dev/loop0` has a multi-character trailing
component ending in a digit, yet `partition_path` appends the number
directly (`/dev/loop03`), not a `p`-infixed suffix, refuting the claim's
universal rule for digit-terminated names. -/
theorem c7_counterexample :
    endsInDigitToken "/dev/loop0" = true
    ∧ partition_path "/dev/loop0" 3 = "/dev/loop03"
    ∧ partition_path "/dev/loop0" 3 ≠ "/dev/loop0p3" := by decide

/-- C7 (amended): the `p` infix is applied exactly when the trailing path
component starts with `nvme` or `mmcblk`; in particular `/dev/sdb` + 3
gives `/dev/sdb3` and `/dev/nvme0n1` + 3 gives `/dev/nvme0n1p3`. -/
theorem c7_partition_path (disk : String) (n : Nat) :
    partition_path "/dev/sdb" 3 = "/dev/sdb3"
    ∧ partition_path "/dev/nvme0n1" 3 = "/dev/nvme0n1p3"
    ∧ ((pyStartswith (String.mk (pathNameChars disk.toList)) "nvme" = true ∨
        pyStartswith (String.mk (pathNameChars disk.toList)) "mmcblk" = true) →
        partition_path disk n = disk ++ "p" ++ toString n)
    ∧ (pyStartswith (String.mk (pathNameChars disk.toList)) "nvme" = false →
        pyStartswith (String.mk (pathNameChars disk.toList)) "mmcblk" = false →
        partition_path disk n = disk ++ toString n) := by
  refine ⟨by decide, by decide, ?_, ?_⟩
  · intro h
    have hc : (pyStartswith (String.mk (pathNameChars disk.toList)) "nvme" ||
        pyStartswith (String.mk (pathNameChars disk.toList)) "mmcblk") = true := by
      rcases h with h | h
      · rw [h, Bool.true_or]
      · rw [h, Bool.or_true]
    unfold partition_path
    rw [if_pos hc]
  · intro h1 h2
    have hc : (pyStartswith (String.mk (pathNameChars disk.toList)) "nvme" ||
        pyStartswith (String.mk (pathNameChars disk.toList)) "mmcblk") = false := by
      rw [h1, h2, Bool.or_false]
    unfold partition_path
    rw [if_neg (by rw [hc]; exact Bool.false_ne_true)]

/-- Witness for C7 on an eMMC-style name. -/
theorem c7_partition_path_witness :
    partition_path "/dev/mmcblk0" 2 = "/dev/mmcblk0" ++ "p" ++ toString 2 :=
  (c7_partition_path "/dev/mmcblk0" 2).2.2.1 (Or.inr (by decide))

/-! ## Claim C8: the standalone writer and pre-existing mounts -/

/-- C8: evaluating the standalone config writer at the failing input.  A
persistence device already mounted at `/media/usb` before the run is
written in place (no remount) but then unmounted — the trace ends with
`unmountPoint "/media/usb"`, a mount this run did not create.  And when
the run mounts the device itself and the write fails, no unmount is
issued at all (there is no `finally` in this script). -/
theorem c8_premounted_is_unmounted :
    (mainB ⟨[blkidLineEx], some "/media/usb", true⟩).2 =
      [Effect.writeFile "/media/usb/persistence.conf" CONF_LINE, Effect.syncFs,
        Effect.unmountPoint "/media/usb"]
    ∧ Effect.unmountPoint "/media/usb" ∈ (mainB ⟨[blkidLineEx], some "/media/usb", true⟩).2
    ∧ (mainB ⟨[blkidLineEx], none, false⟩).2 = [Effect.mountDev "/dev/sdb3" mountPointB] := by
  decide

/-! ## Claim C3: the ambiguity enumeration -/

/-- C3 counterexample: three qualifying disks where exactly two share the
maximum score 3.  The refusal enumerates all three candidates — including
the score-2 `/dev/sdc` — not only the two tied top-scoring ones, so the
enumeration is not "exactly the tied candidates". -/
theorem c3_counterexample :
    find_kali_usb_candidate treeThree =
      SelectResult.ambiguous
        [("/dev/sda", 16 * 1024 ^ 3, 1), ("/dev/sdb", 16 * 1024 ^ 3, 1),
          ("/dev/sdc", 16 * 1024 ^ 3, 0)]
    ∧ maxScore (buildCandidates treeThree) = 3
    ∧ (buildCandidates treeThree).countP
        (fun c => c.1 == maxScore (buildCandidates treeThree)) = 2
    ∧ scoreOf (mkDiskEx "/dev/sdc" 0) = 2 := by decide

/-! ## Claim C5: the largest trailing free region -/

/-- C5: `get_free_region_mib` returns a usable region (span at least
32 MiB) whose end offset is greatest among all usable regions, and
returns none exactly when no reported region is usable; on
[(0,10),(20,100)] it returns (20,100). -/
theorem c5_largest_trailing (regions : List (ℚ × ℚ)) :
    (∀ r, get_free_region_mib regions = some r →
        r ∈ usableRegions regions ∧ ∀ x ∈ usableRegions regions, x.2 ≤ r.2)
    ∧ (get_free_region_mib regions = none ↔ usableRegions regions = [])
    ∧ get_free_region_mib [((0 : ℚ), (10 : ℚ)), (20, 100)] = some (20, 100) := by
  refine ⟨?_, ⟨?_, ?_⟩, ?_⟩
  · intro r hr
    unfold get_free_region_mib at hr
    obtain ⟨t, ht⟩ : ∃ t, List.insertionSort regRel (usableRegions regions) = r :: t := by
      cases hs : List.insertionSort regRel (usableRegions regions) with
      | nil => rw [hs] at hr; simp at hr
      | cons a t =>
        rw [hs] at hr
        simp at hr
        exact ⟨t, by rw [hr]⟩
    have hperm := List.perm_insertionSort regRel (usableRegions regions)
    rw [ht] at hperm
    have hsorted := List.sorted_insertionSort regRel (usableRegions regions)
    rw [ht] at hsorted
    constructor
    · exact hperm.subset (List.mem_cons_self r t)
    · intro x hx
      have hx2 : x ∈ r :: t := hperm.mem_iff.mpr hx
      rcases List.mem_cons.mp hx2 with h | h
      · rw [h]
      · exact (List.sorted_cons.mp hsorted).1 x h
  · intro h
    unfold get_free_region_mib at h
    have hnil : List.insertionSort regRel (usableRegions regions) = [] := by
      cases hs : List.insertionSort regRel (usableRegions regions) with
      | nil => rfl
      | cons a t => rw [hs] at h; simp at h
    have hperm := List.perm_insertionSort regRel (usableRegions regions)
    rw [hnil] at hperm
    exact hperm.symm.eq_nil
  · intro h
    unfold get_free_region_mib
    rw [h]
    rfl
  · norm_num [get_free_region_mib, usableRegions, List.insertionSort, List.orderedInsert,
      List.filter]

/-- Witness for C5: the returned region on [(0,10),(20,100)] is usable
and its end dominates every usable region's end. -/
theorem c5_largest_trailing_witness :
    ((20 : ℚ), (100 : ℚ)) ∈ usableRegions [((0 : ℚ), (10 : ℚ)), (20, 100)]
    ∧ ∀ x ∈ usableRegions [((0 : ℚ), (10 : ℚ)), (20, 100)], x.2 ≤ (20, (100 : ℚ)).2 :=
  (c5_largest_trailing [((0 : ℚ), (10 : ℚ)), (20, 100)]).1 (20, 100)
    (c5_largest_trailing [((0 : ℚ), (10 : ℚ)), (20, 100)]).2.2

/-! ## Claim C6: the idempotent formatter -/

lemma band_eq_true_split {a b : Bool} : (a && b) = true ↔ (a = true ∧ b = true) := by
  cases a <;> cases b <;> simp

/-- C6: `ensure_ext4_persistence` issues no format command exactly when
the blkid probe reports both `TYPE="ext4"` and `LABEL="persistence"`; in
every other case — including a silent probe — it issues exactly the one
format command; and two consecutive calls issue at most one format in
total. -/
theorem c6_ensure_formatted (part : String) (st : Option (String × String)) :
    ((ensure_ext4_persistence part st).2 = [] ↔
      (hasSubstr (blkidOf st) typePat = true ∧ hasSubstr (blkidOf st) labelPat = true))
    ∧ (blkidOf none = "" ∧ (ensure_ext4_persistence part none).2 = [Effect.mkfsExt4 part])
    ∧ ((ensure_ext4_persistence part st).2 = [] ∨
        (ensure_ext4_persistence part st).2 = [Effect.mkfsExt4 part])
    ∧ (ensure_ext4_persistence part ((ensure_ext4_persistence part st).1)).2.length +
        (ensure_ext4_persistence part st).2.length ≤ 1 := by
  have hfmt : (hasSubstr (blkidOf (some ("ext4", "persistence"))) typePat &&
      hasSubstr (blkidOf (some ("ext4", "persistence"))) labelPat) = true := by decide
  have hnone : ¬((hasSubstr (blkidOf (none : Option (String × String))) typePat &&
      hasSubstr (blkidOf (none : Option (String × String))) labelPat) = true) := by decide
  by_cases h : (hasSubstr (blkidOf st) typePat && hasSubstr (blkidOf st) labelPat) = true
  · refine ⟨?_, ⟨rfl, ?_⟩, ?_, ?_⟩
    · unfold ensure_ext4_persistence
      rw [if_pos h]
      simp [(band_eq_true_split.mp h).1, (band_eq_true_split.mp h).2]
    · unfold ensure_ext4_persistence
      rw [if_neg hnone]
    · unfold ensure_ext4_persistence
      rw [if_pos h]
      exact Or.inl rfl
    · unfold ensure_ext4_persistence
      rw [if_pos h]
      simp [h]
  · refine ⟨?_, ⟨rfl, ?_⟩, ?_, ?_⟩
    · unfold ensure_ext4_persistence
      rw [if_neg h]
      constructor
      · intro hx
        simp at hx
      · intro hx
        exact absurd (band_eq_true_split.mpr hx) h
    · unfold ensure_ext4_persistence
      rw [if_neg hnone]
    · unfold ensure_ext4_persistence
      rw [if_neg h]
      exact Or.inr rfl
    · unfold ensure_ext4_persistence
      rw [if_neg h]
      simp [hfmt]

/-- Witness for C6: a silent probe is formatted; a probe already showing
the target type and label is left alone. -/
theorem c6_ensure_formatted_witness :
    (ensure_ext4_persistence "/dev/sdb3" none).2 = [Effect.mkfsExt4 "/dev/sdb3"]
    ∧ (ensure_ext4_persistence "/dev/sdb3" (some ("ext4", "persistence"))).2 = [] :=
  ⟨(c6_ensure_formatted "/dev/sdb3" none).2.1.2,
    (c6_ensure_formatted "/dev/sdb3" (some ("ext4", "persistence"))).1.mpr
      ⟨by decide, by decide⟩⟩

/-! ## Claim C4: the candidate rule -/

lemma isoishB_iff (p : PChild) :
    isoishB p = true ↔
      (4 * 1024 ^ 3 ≤ p.size ∧ p.size ≤ 8 * 1024 ^ 3 ∧
        (pyToLower (p.fstype.getD "") = "iso9660" ∨ pyToLower (p.fstype.getD "") = "vfat" ∨
          pyToLower (p.fstype.getD "") = "fat" ∨ pyToLower (p.fstype.getD "") = "fat32" ∨
          hasSubstr (pyToLower (p.label.getD "")) "kali" = true)) := by
  unfold isoishB
  simp only [Bool.and_eq_true, Bool.or_eq_true, decide_eq_true_eq, beq_iff_eq]
  tauto

lemma tinyB_iff (p : PChild) :
    tinyB p = true ↔ (1024 ^ 2 ≤ p.size ∧ p.size ≤ 8 * 1024 ^ 2) := by
  unfold tinyB
  simp

lemma diskQualifies_iff (d : BDev) :
    diskQualifies d = true ↔
      (8 * 1024 ^ 3 ≤ d.size ∧ 2 ≤ d.children.length ∧
        (∃ c ∈ d.children, isoishB c = true) ∧ (∃ c ∈ d.children, tinyB c = true)) := by
  unfold diskQualifies
  simp only [Bool.and_eq_true, decide_eq_true_eq, List.any_eq_true]
  tauto

/-- C4: a disk is treated as a candidate only if it is a type-"disk"
entry of the tree of total size at least 8 GiB with at least two
children, one child iso-like (size in [4 GiB, 8 GiB] and fstype in the
optical/FAT allow-list or a label containing "kali" case-insensitively)
and one child tiny (size in [1 MiB, 8 MiB]); every candidate's score is
2 plus 1 for a removable disk; and when no disk qualifies the selector
reports the no-candidate failure. -/
theorem c4_candidate_rule (tree : List BDev) :
    (∀ s p d, (s, p, d) ∈ buildCandidates tree →
        d ∈ tree ∧ d.type = "disk" ∧ p = d.path ∧
        8 * 1024 ^ 3 ≤ d.size ∧ 2 ≤ d.children.length ∧
        (∃ c ∈ d.children, 4 * 1024 ^ 3 ≤ c.size ∧ c.size ≤ 8 * 1024 ^ 3 ∧
          (pyToLower (c.fstype.getD "") = "iso9660" ∨ pyToLower (c.fstype.getD "") = "vfat" ∨
            pyToLower (c.fstype.getD "") = "fat" ∨ pyToLower (c.fstype.getD "") = "fat32" ∨
            hasSubstr (pyToLower (c.label.getD "")) "kali" = true)) ∧
        (∃ c ∈ d.children, 1024 ^ 2 ≤ c.size ∧ c.size ≤ 8 * 1024 ^ 2) ∧
        s = 2 + (if d.rm = 1 then 1 else 0)) ∧
    ((∀ d ∈ tree, d.type = "disk" →
        ¬(8 * 1024 ^ 3 ≤ d.size ∧ 2 ≤ d.children.length ∧
          (∃ c ∈ d.children, 4 * 1024 ^ 3 ≤ c.size ∧ c.size ≤ 8 * 1024 ^ 3 ∧
            (pyToLower (c.fstype.getD "") = "iso9660" ∨ pyToLower (c.fstype.getD "") = "vfat" ∨
              pyToLower (c.fstype.getD "") = "fat" ∨ pyToLower (c.fstype.getD "") = "fat32" ∨
              hasSubstr (pyToLower (c.label.getD "")) "kali" = true)) ∧
          (∃ c ∈ d.children, 1024 ^ 2 ≤ c.size ∧ c.size ≤ 8 * 1024 ^ 2))) →
      find_kali_usb_candidate tree =
        SelectResult.noCandidate "No obvious Kali-flashed USB found.") := by
  constructor
  · intro s p d hmem
    unfold buildCandidates at hmem
    simp only [List.mem_map, List.mem_filter] at hmem
    obtain ⟨d2, ⟨⟨hmem2, htype⟩, hqual⟩, heq⟩ := hmem
    have heq2 : scoreOf d2 = s ∧ d2.path = p ∧ d2 = d := by
      have h1 := congrArg Prod.fst heq
      have h2 := congrArg (fun x => x.2.1) heq
      have h3 := congrArg (fun x => x.2.2) heq
      exact ⟨h1, h2, h3⟩
    obtain ⟨hs, hp, hd⟩ := heq2
    subst hd
    obtain ⟨hsize, hlen, hiso, htiny⟩ := (diskQualifies_iff d2).mp hqual
    refine ⟨hmem2, ?_, hp.symm, hsize, hlen, ?_, ?_, ?_⟩
    · exact beq_iff_eq.mp htype
    · obtain ⟨c, hc, hcc⟩ := hiso
      exact ⟨c, hc, (isoishB_iff c).mp hcc⟩
    · obtain ⟨c, hc, hcc⟩ := htiny
      exact ⟨c, hc, (tinyB_iff c).mp hcc⟩
    · rw [← hs]
      rfl
  · intro hall
    have hb : buildCandidates tree = [] := by
      unfold buildCandidates
      rw [List.map_eq_nil_iff, List.filter_eq_nil_iff]
      intro d hd
      rw [List.mem_filter] at hd
      intro hq
      obtain ⟨hqs, hql, hqi, hqt⟩ := (diskQualifies_iff d).mp hq
      refine hall d hd.1 (beq_iff_eq.mp hd.2) ⟨hqs, hql, ?_, ?_⟩
      · obtain ⟨c, hc, hcc⟩ := hqi
        exact ⟨c, hc, (isoishB_iff c).mp hcc⟩
      · obtain ⟨c, hc, hcc⟩ := hqt
        exact ⟨c, hc, (tinyB_iff c).mp hcc⟩
    unfold find_kali_usb_candidate
    rw [hb]
    rfl

/-- Witness for C4 at a concrete candidate. -/
theorem c4_candidate_rule_witness :
    mkDiskEx "/dev/sda" 1 ∈ treeThree ∧ 8 * 1024 ^ 3 ≤ (mkDiskEx "/dev/sda" 1).size := by
  have h := (c4_candidate_rule treeThree).1 3 "/dev/sda" (mkDiskEx "/dev/sda" 1) (by decide)
  exact ⟨h.1, h.2.2.2.1⟩

/-! ## Claim C3 (amended): the ambiguity refusal -/

lemma maxScore_perm {l1 l2 : List (Nat × String × BDev)} (h : l1.Perm l2) :
    maxScore l1 = maxScore l2 := by
  induction h with
  | nil => rfl
  | cons x h ih =>
    unfold maxScore at *
    simp only [List.foldr_cons]
    rw [ih]
  | swap x y l =>
    unfold maxScore
    simp only [List.foldr_cons]
    exact Nat.max_left_comm _ _ _
  | trans h1 h2 ih1 ih2 => rw [ih1, ih2]

lemma maxScore_le {l : List (Nat × String × BDev)} {m : Nat}
    (h : ∀ x ∈ l, x.1 ≤ m) : maxScore l ≤ m := by
  induction l with
  | nil => exact Nat.zero_le m
  | cons a t ih =>
    unfold maxScore at *
    simp only [List.foldr_cons]
    refine Nat.max_le.mpr ⟨h a (List.mem_cons_self a t), ?_⟩
    exact ih (fun x hx => h x (List.mem_cons_of_mem a hx))

lemma head_sorted_maxScore {c : Nat × String × BDev} {rest : List (Nat × String × BDev)}
    (hsort : List.Sorted candRel (c :: rest)) : maxScore (c :: rest) = c.1 := by
  have hall : ∀ x ∈ rest, x.1 ≤ c.1 := fun x hx => (List.sorted_cons.mp hsort).1 x hx
  unfold maxScore
  simp only [List.foldr_cons]
  exact Nat.max_eq_left (maxScore_le hall)

/-- C3 (amended): whenever two or more candidates share the maximum
score, the selector refuses with an ambiguity error and never returns a
disk path; the refusal enumerates the first ten sorted candidates (all
of them when at most ten exist) — a superset of the tied top-scoring
candidates, not exactly that set. -/
theorem c3_ambiguous_refusal (tree : List BDev)
    (h2 : 2 ≤ (buildCandidates tree).countP
        (fun c => c.1 == maxScore (buildCandidates tree))) :
    find_kali_usb_candidate tree =
      SelectResult.ambiguous (listedOf (sortCandidates (buildCandidates tree)))
    ∧ (∀ p, find_kali_usb_candidate tree ≠ SelectResult.chosen p)
    ∧ ((buildCandidates tree).length ≤ 10 →
        ∀ c ∈ buildCandidates tree, c.1 = maxScore (buildCandidates tree) →
          (c.2.1, c.2.2.size, c.2.2.rm) ∈ listedOf (sortCandidates (buildCandidates tree))) := by
  have hperm : (sortCandidates (buildCandidates tree)).Perm (buildCandidates tree) :=
    List.perm_insertionSort candRel (buildCandidates tree)
  have hcount : 2 ≤ (sortCandidates (buildCandidates tree)).countP
      (fun c => c.1 == maxScore (buildCandidates tree)) := by
    rw [hperm.countP_eq]
    exact h2
  cases hs : sortCandidates (buildCandidates tree) with
  | nil =>
    rw [hs] at hcount
    simp at hcount
  | cons c rest =>
    have hsort : List.Sorted candRel (c :: rest) := by
      have := List.sorted_insertionSort candRel (buildCandidates tree)
      rw [show List.insertionSort candRel (buildCandidates tree) =
        sortCandidates (buildCandidates tree) from rfl, hs] at this
      exact this
    have hpermc : (c :: rest).Perm (buildCandidates tree) := by
      rw [← hs]
      exact hperm
    have hmax : c.1 = maxScore (buildCandidates tree) := by
      rw [← maxScore_perm hpermc]
      exact (head_sorted_maxScore hsort).symm
    have htop : ((c :: rest).filter (fun x => x.1 == c.1)).length ≠ 1 := by
      rw [← List.countP_eq_length_filter]
      rw [hs] at hcount
      have : (fun (x : Nat × String × BDev) => x.1 == c.1) =
          (fun x => x.1 == maxScore (buildCandidates tree)) := by
        funext x
        rw [hmax]
      rw [this]
      omega
    have hfind : find_kali_usb_candidate tree =
        SelectResult.ambiguous (listedOf (c :: rest)) := by
      unfold find_kali_usb_candidate
      rw [hs]
      exact if_pos htop
    refine ⟨hfind, ?_, ?_⟩
    · intro p
      rw [hfind]
      intro hx
      exact SelectResult.noConfusion hx
    · intro hlen x hx hxmax
      have hx2 : x ∈ c :: rest := hpermc.mem_iff.mpr hx
      have hlen2 : (c :: rest).length ≤ 10 := by
        rw [hpermc.length_eq]
        exact hlen
      unfold listedOf
      rw [List.take_of_length_le hlen2]
      exact List.mem_map.mpr ⟨x, hx2, rfl⟩

/-- Witness for C3 at the three-disk tree with a two-way tie at the top. -/
theorem c3_ambiguous_refusal_witness :
    find_kali_usb_candidate treeThree =
      SelectResult.ambiguous (listedOf (sortCandidates (buildCandidates treeThree))) :=
  (c3_ambiguous_refusal treeThree (by decide)).1

/-! ## Claim C10: several persistence volumes, first one wins -/

/-- C10: when the blkid output carries two or more ext4 lines labeled
persistence, `find_persistence_device` does not signal an error: it
returns the device of the first matching line in output order and merely
sets the warning flag (a printed warning in the source). -/
theorem c10_first_of_many (lines : List String) (l : String)
    (h1 : lines.find? persLine = some l)
    (h2 : 2 ≤ (lines.filter persLine).length) :
    find_persistence_device lines = FindResult.found (extractDev l) true := by
  have hh : (lines.filter persLine).head? = some l := by
    rw [filter_head?_eq_find? persLine lines]
    exact h1
  cases hf : lines.filter persLine with
  | nil =>
    rw [hf] at hh
    simp at hh
  | cons a t =>
    rw [hf] at hh h2
    simp at hh
    subst hh
    unfold find_persistence_device
    rw [hf]
    simp only [List.map_cons]
    have ht : 1 ≤ t.length := by
      simp at h2
      omega
    have : (1 < (t.map extractDev).length + 1) = True := by
      simp only [List.length_map]
      simp
      omega
    simp [this]
    omega

/-- Witness for C10 with two persistence lines. -/
theorem c10_first_of_many_witness :
    find_persistence_device [blkidLineEx, blkidLineEx2] = FindResult.found "/dev/sdb3" true := by
  have h := c10_first_of_many [blkidLineEx, blkidLineEx2] blkidLineEx (by decide) (by decide)
  rw [show extractDev blkidLineEx = "/dev/sdb3" from by decide] at h
  exact h

/-! ## Claim C1: the idempotent fast path -/

/-- C1: when blkid already reports an ext4 partition labeled persistence
(a line carrying both patterns), a run that passes the existence and
safety checks goes straight to the config write on that existing device
and succeeds: its whole trace is the best-effort stray unmounts followed
by mount, activation-file write, sync and unmount — no partition
creation and no formatting (no destructive effect at all). -/
theorem c1_idempotent_fast_path (env : Env) (disk : String)
    (hdev : env.deviceExists disk = true)
    (hsafe : pyStartswith env.rootSource disk = false)
    (hmnt : env.mountOk = true) (hwr : env.writeOk = true)
    (l : String) (hl : l ∈ env.blkidLines) (hpl : persLine l = true) :
    ∃ pdev,
      mainRun disk env =
        (RunResult.success,
          env.strayMounts.map Effect.unmountTarget ++
            [Effect.mountDev pdev mountPoint,
              Effect.writeFile (mountPoint ++ "/persistence.conf") CONF_CONTENT,
              Effect.syncFs, Effect.unmountPoint mountPoint])
      ∧ ∀ e ∈ (mainRun disk env).2, isDestructive e = false := by
  obtain ⟨y, hy, hpy⟩ := find?_some_of_mem persLine hl hpl
  have hany : env.blkidLines.any (fun s => hasSubstr s labelPat) = true := by
    rw [List.any_eq_true]
    exact ⟨l, hl, (band_eq_true_split.mp hpl).1⟩
  have hfp : fastPathDevice env.blkidLines = some (extractDev y) := by
    unfold fastPathDevice
    rw [if_pos hany, hy]
  have hrun : mainRun disk env =
      (RunResult.success,
        env.strayMounts.map Effect.unmountTarget ++
          [Effect.mountDev (extractDev y) mountPoint,
            Effect.writeFile (mountPoint ++ "/persistence.conf") CONF_CONTENT,
            Effect.syncFs, Effect.unmountPoint mountPoint]) := by
    unfold mainRun
    rw [hdev]
    simp only [Bool.true_eq_false, if_false]
    rw [hsafe, Bool.and_false, if_neg Bool.false_ne_true]
    rw [hfp]
    unfold mount_and_write_conf
    rw [hmnt, hwr]
    simp
  refine ⟨extractDev y, hrun, ?_⟩
  rw [hrun]
  intro e he
  simp only [List.mem_append, List.mem_map, List.mem_cons] at he
  rcases he with ⟨t, _, rfl⟩ | he
  · rfl
  · rcases he with rfl | rfl | rfl | rfl | hfalse
    · rfl
    · rfl
    · rfl
    · rfl
    · exact absurd hfalse (List.not_mem_nil e)

/-- Witness for C1 at a concrete system state. -/
theorem c1_idempotent_fast_path_witness :
    ∃ pdev,
      mainRun "/dev/sdb" envC1 =
        (RunResult.success,
          envC1.strayMounts.map Effect.unmountTarget ++
            [Effect.mountDev pdev mountPoint,
              Effect.writeFile (mountPoint ++ "/persistence.conf") CONF_CONTENT,
              Effect.syncFs, Effect.unmountPoint mountPoint])
      ∧ ∀ e ∈ (mainRun "/dev/sdb" envC1).2, isDestructive e = false :=
  c1_idempotent_fast_path envC1 "/dev/sdb" rfl (by decide) rfl rfl blkidLineEx
    (by decide) (by decide)

/-! ## Claim C9: the activation file content -/

lemma mainB_write_content (envB : EnvB) (p c : String)
    (hc : Effect.writeFile p c ∈ (mainB envB).2) : c = CONF_LINE := by
  unfold mainB at hc
  cases hfd : find_persistence_device envB.blkidLines with
  | err m =>
    rw [hfd] at hc
    simp at hc
  | found dev w =>
    rw [hfd] at hc
    cases hpm : envB.preMount with
    | none =>
      rw [hpm] at hc
      cases hbw : envB.writeOk with
      | false =>
        rw [hbw] at hc
        simp at hc
      | true =>
        rw [hbw] at hc
        simp at hc
        exact hc.2
    | some t =>
      rw [hpm] at hc
      cases hbw : envB.writeOk with
      | false =>
        rw [hbw] at hc
        simp at hc
      | true =>
        rw [hbw] at hc
        simp at hc
        exact hc.2

/-- C9: a successful config-write stage leaves `persistence.conf` under
the mount point holding exactly the bytes of the single line `/ union`
followed by a newline, overwriting any previous content (the prior store
is arbitrary); every file write the orchestrator's config-write stage or
the standalone script ever issues carries exactly that content, and both
scripts' content constants agree byte for byte. -/
theorem c9_activation_file (env : Env) (part : String) (fs : List (String × String))
    (h : (mount_and_write_conf env part).1 = true) :
    readFsFile (applyEffects fs (mount_and_write_conf env part).2)
        (mountPoint ++ "/persistence.conf") = some CONF_CONTENT
    ∧ CONF_CONTENT.toList = ['/', ' ', 'u', 'n', 'i', 'o', 'n', '\n']
    ∧ (∀ p c, Effect.writeFile p c ∈ (mount_and_write_conf env part).2 → c = CONF_CONTENT)
    ∧ CONF_LINE = CONF_CONTENT
    ∧ (∀ (envB : EnvB) p c, Effect.writeFile p c ∈ (mainB envB).2 → c = CONF_LINE) := by
  cases hmo : env.mountOk with
  | false =>
    unfold mount_and_write_conf at h
    rw [hmo] at h
    simp at h
  | true =>
    cases hwo : env.writeOk with
    | false =>
      unfold mount_and_write_conf at h
      rw [hmo, hwo] at h
      simp at h
    | true =>
      have heff : (mount_and_write_conf env part).2 =
          [Effect.mountDev part mountPoint,
            Effect.writeFile (mountPoint ++ "/persistence.conf") CONF_CONTENT,
            Effect.syncFs, Effect.unmountPoint mountPoint] := by
        unfold mount_and_write_conf
        rw [hmo, hwo]
        rfl
      refine ⟨?_, by decide, ?_, rfl, ?_⟩
      · rw [heff]
        unfold applyEffects readFsFile
        simp [List.foldl]
      · intro p c hc
        rw [heff] at hc
        simp at hc
        exact hc.2
      · intro envB p c hc
        exact mainB_write_content envB p c hc

/-- Witness for C9: stale content at the activation path is overwritten. -/
theorem c9_activation_file_witness :
    readFsFile (applyEffects fsOld (mount_and_write_conf envC9 "/dev/sdb3").2)
      (mountPoint ++ "/persistence.conf") = some CONF_CONTENT :=
  (c9_activation_file envC9 "/dev/sdb3" fsOld rfl).1
